import Mathlib

/-!
# Verification of the transaction post-processing pipeline

Shallow embedding of the transaction extraction / filtering / grouping /
visualization-assembly code of this repository (the `finance-tool` and
`visualize-tool` revisions).  JavaScript strings are modelled by `String`,
JavaScript numbers by `Rat` (all amounts in the repository's data are exact
decimals), absent object fields by `Option`, and code that can throw by
`Except String`.  External runtime services (date parsing/formatting,
`Math.random`, number rendering) are passed in as explicit parameters.
-/

attribute [local semireducible] Rat.add Rat.mul Rat.sub Rat.inv Rat.ofScientific

/-! ## JavaScript string and number primitives -/

/-- Lower-casing of a string (`String.prototype.toLowerCase` restricted to the
ASCII data this repository manipulates). -/
def jsToLower (s : String) : String :=
  String.mk (s.toList.map Char.toLower)

/-- Substring containment on character lists: `needle` occurs contiguously in
`hay` (semantics of `String.prototype.includes`). -/
def listContainsSub (hay needle : List Char) : Bool :=
  if needle.isPrefixOf hay then true
  else
    match hay with
    | [] => needle.isEmpty
    | _ :: t => listContainsSub t needle

/-- Substring test: `strContains hay needle` is `String.prototype.includes`: `needle` occurs in
`hay`. -/
def strContains (hay needle : String) : Bool :=
  listContainsSub hay.toList needle.toList

/-- The whitespace characters relevant to the repository's data (the ASCII part
of the JavaScript `\s` class). -/
def isWsChar (c : Char) : Bool :=
  c = ' ' || c = '\t' || c = '\n' || c = '\r'

/-- JavaScript `String.prototype.trim`: strip whitespace from both ends. -/
def trimStr (s : String) : String :=
  String.mk (((s.toList.dropWhile isWsChar).reverse.dropWhile isWsChar).reverse)

/-- One step of whitespace collapsing: a run of whitespace becomes a single
space (the `.replace(/\s+/g, " ")` call). -/
def collapseWsGo : List Char → Bool → List Char
  | [], _ => []
  | c :: rest, prevWs =>
    if isWsChar c then
      if prevWs then collapseWsGo rest true
      else ' ' :: collapseWsGo rest true
    else c :: collapseWsGo rest false

/-- Collapse every whitespace run to one space: `.replace(/\s+/g, " ")`. -/
def collapseWs (s : String) : String :=
  String.mk (collapseWsGo s.toList false)

/-- Whitespace tokenization of a query string.  The source computes
`query.split(/\s+/)`; JavaScript `split` can additionally produce empty
boundary tokens, but every use in the repository immediately filters the
tokens by `length > 2`, so empty tokens are dropped here directly. -/
def splitWsGo : List Char → List Char → List String
  | [], cur => if cur.isEmpty then [] else [String.mk cur.reverse]
  | c :: rest, cur =>
    if isWsChar c then
      if cur.isEmpty then splitWsGo rest []
      else String.mk cur.reverse :: splitWsGo rest []
    else splitWsGo rest (c :: cur)

/-- Split a string on whitespace runs (non-empty tokens). -/
def splitWs (s : String) : List String :=
  splitWsGo s.toList []

/-- JavaScript truthiness of a possibly-absent string: `undefined` and `""`
are falsy. -/
def jsTruthyStr : Option String → Bool
  | none => false
  | some s => s ≠ ""

/-- JavaScript truthiness of a possibly-absent number: `undefined` and `0`
are falsy. -/
def jsTruthyNum : Option Rat → Bool
  | none => false
  | some a => a ≠ 0

/-- Evaluation of `o || d` for a possibly-absent string `o`. -/
def jsOrStr (o : Option String) (d : String) : String :=
  match o with
  | none => d
  | some s => if s = "" then d else s

/-- Evaluation of `s || d` for a present string `s`. -/
def jsOrStrS (s d : String) : String :=
  if s = "" then d else s

/-- Evaluation of `v || d` for a present number `v` (`0` is falsy). -/
def jsOrRat (v d : Rat) : Rat :=
  if v = 0 then d else v

/-- Evaluation of `o || d` for a possibly-absent number `o`. -/
def jsOrNumOpt (o : Option Rat) (d : Rat) : Rat :=
  match o with
  | none => d
  | some v => if v = 0 then d else v

/-- Comparison `o < x` in JavaScript when `o` may be `undefined`: comparing `undefined`
with a number yields `NaN ≮ x`, i.e. `false`. -/
def jsLtOptNum (o : Option Rat) (x : Rat) : Bool :=
  match o with
  | none => false
  | some v => v < x

/-- JavaScript `Math.abs` on a rational. -/
def jsAbsRat (a : Rat) : Rat :=
  if a < 0 then -a else a

/-- Computation of `Math.abs(Number(amount) || 0)`: an absent amount coerces to `0`. -/
def jsAmountAbs (o : Option Rat) : Rat :=
  match o with
  | none => 0
  | some a => jsAbsRat a

/-- Lexicographic (code-unit) strict order on character lists, the semantics
of JavaScript `<` on strings. -/
def charListLt : List Char → List Char → Bool
  | [], [] => false
  | [], _ :: _ => true
  | _ :: _, [] => false
  | a :: as, b :: bs =>
    if a < b then true
    else if b < a then false
    else charListLt as bs

/-- JavaScript string comparison `a < b`. -/
def strLtB (a b : String) : Bool :=
  charListLt a.toList b.toList

/-! ## Label formatting helpers (`capitalizeLabel`, `cleanupDescription`) -/

/-- JavaScript `label.split(" ")`: split on single spaces, keeping empty pieces
(`"a  b"` gives `["a", "", "b"]`, `""` gives `[""]`). -/
def splitSpGo : List Char → List Char → List String
  | [], cur => [String.mk cur.reverse]
  | c :: rest, cur =>
    if c = ' ' then String.mk cur.reverse :: splitSpGo rest []
    else splitSpGo rest (c :: cur)

/-- JavaScript `label.split(" ")` on a string. -/
def splitSp (s : String) : List String :=
  splitSpGo s.toList []

/-- JavaScript `Array.prototype.join(sep)`. -/
def joinWith (sep : String) : List String → String
  | [] => ""
  | [s] => s
  | s :: rest => s ++ sep ++ joinWith sep rest

/-- Capitalize one word: first character upper-cased, the rest lower-cased
(`word.charAt(0).toUpperCase() + word.slice(1).toLowerCase()`). -/
def capWord (w : String) : String :=
  match w.toList with
  | [] => ""
  | c :: rest => String.mk (c.toUpper :: rest.map Char.toLower)

/-- The `/^\d{4}-\d{2}(-\d{2})?$/` test: a date-shaped label. -/
def isDateShape (s : String) : Bool :=
  match s.toList with
  | [a, b, c, d, '-', e, f] =>
    a.isDigit && b.isDigit && c.isDigit && d.isDigit && e.isDigit && f.isDigit
  | [a, b, c, d, '-', e, f, '-', g, h] =>
    a.isDigit && b.isDigit && c.isDigit && d.isDigit && e.isDigit &&
      f.isDigit && g.isDigit && h.isDigit
  | _ => false

/-- The `/^[A-Z][a-z]{2} \d{4}$/` test: a month-shaped label such as
"Jan 2025". -/
def isMonthShape (s : String) : Bool :=
  match s.toList with
  | [a, b, c, ' ', d, e, f, g] =>
    a.isUpper && b.isLower && c.isLower &&
      d.isDigit && e.isDigit && f.isDigit && g.isDigit
  | _ => false

/-- Function `capitalizeLabel` of the richer visualize revision: empty labels become
"Unknown", date-shaped and month-shaped labels pass through unchanged, and
otherwise each space-separated word is capitalized. -/
def capitalizeLabel (label : String) : String :=
  if label = "" then "Unknown"
  else if isDateShape label then label
  else if isMonthShape label then label
  else joinWith " " ((splitSp label).map capWord)

/-- Function `capitalizeLabel` of the legacy visualize revision, which only exempts
date-shaped labels from word capitalization. -/
def capitalizeLabelViz (label : String) : String :=
  if label = "" then "Unknown"
  else if isDateShape label then label
  else joinWith " " ((splitSp label).map capWord)

/-- Case-insensitive prefix match: when the lower-case pattern `alt` is a
prefix of `hay` up to case, return the remainder of `hay`. -/
def ciPrefixDrop : List Char → List Char → Option (List Char)
  | [], hay => some hay
  | _ :: _, [] => none
  | a :: as, h :: hs =>
    if a = h.toLower then ciPrefixDrop as hs else none

/-- Try the alternatives of a regex alternation left to right at the current
position; on success return the input with the match consumed. -/
def firstAltDrop (alts : List (List Char)) (hay : List Char) : Option (List Char) :=
  match alts with
  | [] => none
  | a :: rest =>
    match ciPrefixDrop a hay with
    | some remaining => some remaining
    | none => firstAltDrop rest hay

/-- Global case-insensitive replacement of an alternation with the empty
string (the `.replace(/a|b|…/gi, "")` calls): scan left to right, deleting
the leftmost-alternative match at each position.  Fuel-driven; the fuel is
the length of the text, which suffices because every alternative used in the
source is non-empty. -/
def replaceAllCIGo (alts : List (List Char)) : Nat → List Char → List Char
  | 0, _ => []
  | _ + 1, [] => []
  | n + 1, c :: rest =>
    match firstAltDrop alts (c :: rest) with
    | some remaining => replaceAllCIGo alts n remaining
    | none => c :: replaceAllCIGo alts n rest

/-- Delete every case-insensitive occurrence of one of `alts` from `s`. -/
def replaceAllCI (alts : List String) (s : String) : String :=
  String.mk (replaceAllCIGo (alts.map String.toList) s.toList.length s.toList)

/-- The boilerplate phrases stripped by `cleanupDescription`. -/
def boilerplatePhrases : List String :=
  ["payment to", "payment from", "transfer to", "transfer from",
   "purchase at", "transaction at"]

/-- The legal suffixes stripped by `cleanupDescription`. -/
def legalSuffixes : List String :=
  ["inc.", "llc", "ltd", "corp.", "corporation"]

/-- Function `cleanupDescription`: falsy descriptions give `""`; otherwise strip
boilerplate phrases, strip legal suffixes, trim, and truncate to 22
characters plus an ellipsis when longer than 25. -/
def cleanupDescription (description : Option String) : String :=
  match description with
  | none => ""
  | some s =>
    if s = "" then ""
    else
      let cleaned := trimStr (replaceAllCI legalSuffixes (replaceAllCI boilerplatePhrases s))
      if cleaned.length > 25 then String.mk (cleaned.toList.take 22) ++ "..."
      else cleaned

/-! ## The transaction record and chart entry data model -/

/-- A transaction record as manipulated by the pipeline.  The source is
loosely typed; fields that the code probes for presence are `Option`s.
`score` is the attached similarity score (`relevanceScore` / `_score`). -/
structure Txn where
  date : Option String := none
  amount : Option Rat := none
  currencyCode : Option String := none
  description : Option String := none
  category : Option String := none
  topLevelCategory : Option String := none
  type : Option String := none
  merchant : Option String := none
  userGuid : Option String := none
  score : Option Rat := none
deriving DecidableEq, Repr

/-- A chart data entry `{label, value, date}`. -/
structure Entry where
  label : String
  value : Rat
  date : String
deriving DecidableEq, Repr

/-! ## The richer visualize revision (`part_001`): filtering -/

/-- The normalized description used for recurring detection:
`description.toLowerCase().replace(/\s+/g, " ").trim()`. -/
def normDesc (s : String) : String :=
  trimStr (collapseWs (jsToLower s))

/-- Does this record carry a (truthy) description normalizing to `s`? -/
def descMatches (s : String) (t : Txn) : Bool :=
  match t.description with
  | none => false
  | some d => if d = "" then false else normDesc d == s

/-- The number of records of `l` whose normalized description is `s`.  The
source accumulates these counts in a `Map` keyed by normalized description
(records with a falsy description are skipped); the count lookup is modelled
directly by counting. -/
def descCount (l : List Txn) (s : String) : Nat :=
  l.countP (descMatches s)

/-- The membership test of `findRecurringTransactions`: the record carries a
truthy description whose normalization occurs more than once in `l`. -/
def recurringPred (l : List Txn) (t : Txn) : Bool :=
  match t.description with
  | none => false
  | some d => if d = "" then false else decide (descCount l (normDesc d) > 1)

/-- Function `findRecurringTransactions`: keep exactly the records whose (present,
non-empty) description is shared — after normalization — by more than one
record of the input. -/
def findRecurringTransactions (l : List Txn) : List Txn :=
  l.filter (recurringPred l)

/-- Function `filterTransactionsByType`: `income_only` keeps type `"income"` or
positive numeric amount, `expenses_only` keeps type `"expense"` or negative
numeric amount, `recurring_only` delegates to recurring detection, anything
else passes the list through. -/
def filterTransactionsByType (transactions : List Txn) (filterType : String) : List Txn :=
  if filterType = "income_only" then
    transactions.filter fun t =>
      t.type == some "income" ||
        (match t.amount with
         | some a => decide (a > 0)
         | none => false)
  else if filterType = "expenses_only" then
    transactions.filter fun t =>
      t.type == some "expense" ||
        (match t.amount with
         | some a => decide (a < 0)
         | none => false)
  else if filterType = "recurring_only" then
    findRecurringTransactions transactions
  else
    transactions

/-- One record's keyword test: some lower-cased keyword is a substring of the
record's description, category, merchant or type (absent fields read as ""). -/
def keywordMatches (lowercaseKeywords : List String) (t : Txn) : Bool :=
  let description := jsToLower (jsOrStr t.description "")
  let category := jsToLower (jsOrStr t.category "")
  let merchant := jsToLower (jsOrStr t.merchant "")
  let type := jsToLower (jsOrStr t.type "")
  lowercaseKeywords.any fun keyword =>
    strContains description keyword || strContains category keyword ||
      strContains merchant keyword || strContains type keyword

/-- Function `filterTransactionsByQuery`: type filter, then (when keywords were
supplied) the keyword filter with a relevance re-sort when any survivor
carries a score, then the recurring filter when the query mentions
"recurring". -/
def filterTransactionsByQuery (transactions : List Txn) (query : String)
    (queryKeywords : List String) (filterType : String) : List Txn :=
  let filtered := filterTransactionsByType transactions filterType
  let filtered :=
    if queryKeywords.length > 0 then
      let lowercaseKeywords := queryKeywords.map jsToLower
      let kept := filtered.filter (keywordMatches lowercaseKeywords)
      if kept.any (fun t => t.score.isSome) then
        kept.mergeSort fun a b => decide (jsOrNumOpt b.score 0 ≤ jsOrNumOpt a.score 0)
      else kept
    else filtered
  if strContains (jsToLower query) "recurring" then
    findRecurringTransactions filtered
  else filtered

/-! ## The richer visualize revision (`part_001`): grouping -/

/-- An aggregation bucket: running total of absolute amounts, most recent
date string, and the member records. -/
structure GroupData where
  totalAmount : Rat
  mostRecentDate : String
  txns : List Txn
deriving DecidableEq, Repr

/-- The grouping key of one record under a grouping method.  `monthFmt`
models the external `new Date(date).toLocaleString("en-US", {month: "short",
year: "numeric"})` call of the `by_month` branch. -/
def groupKeyP (groupingMethod : String) (monthFmt : String → String) (t : Txn) : String :=
  if groupingMethod = "by_category" then
    jsOrStr t.category (jsOrStrS (cleanupDescription t.description) "Uncategorized")
  else if groupingMethod = "by_merchant" then
    jsOrStr t.merchant (jsOrStrS (cleanupDescription t.description) "Unknown Merchant")
  else if groupingMethod = "by_type" then
    jsOrStr t.type "Unknown Type"
  else if groupingMethod = "by_month" && jsTruthyStr t.date then
    monthFmt (jsOrStr t.date "")
  else if groupingMethod = "by_date" then
    jsOrStr t.date "Unknown Date"
  else
    jsOrStr t.category (jsOrStrS (cleanupDescription t.description) "Uncategorized")

/-- Does the insertion-ordered association list have this key? -/
def assocHas (m : List (String × GroupData)) (key : String) : Bool :=
  m.any fun p => p.1 == key

/-- Update the (unique) binding of `key` in place. -/
def assocUpdate (m : List (String × GroupData)) (key : String)
    (f : GroupData → GroupData) : List (String × GroupData) :=
  m.map fun p => if p.1 = key then (p.1, f p.2) else p

/-- One `forEach` step of `groupTransactions`: ensure the bucket exists (new
buckets are appended, as JavaScript `Map` insertion does), then accumulate
the absolute amount, append the record, and raise the most recent date.
`today` models `new Date().toISOString().split("T")[0]`. -/
def groupStep (groupingMethod : String) (monthFmt : String → String) (today : String)
    (acc : List (String × GroupData)) (t : Txn) : List (String × GroupData) :=
  let key := groupKeyP groupingMethod monthFmt t
  let acc :=
    if assocHas acc key then acc
    else acc ++ [(key, ⟨0, jsOrStr t.date today, []⟩)]
  assocUpdate acc key fun g =>
    { totalAmount := g.totalAmount + jsAmountAbs t.amount
      mostRecentDate :=
        if jsTruthyStr t.date && strLtB g.mostRecentDate (jsOrStr t.date "") then
          jsOrStr t.date ""
        else g.mostRecentDate
      txns := g.txns ++ [t] }

/-- Function `groupTransactions` of the richer visualize revision.  The JavaScript
`Map` is modelled as an insertion-ordered association list; the final
`new Map(Array.from(...))` identity rebuild in the source is a no-op. -/
def groupTransactions (transactions : List Txn) (groupingMethod : String)
    (monthFmt : String → String) (today : String) : List (String × GroupData) :=
  transactions.foldl (groupStep groupingMethod monthFmt today) []

/-- Sort chart entries by value descending (`sort((a, b) => b.value -
a.value)`, a stable sort in JavaScript). -/
def sortEntriesDesc (l : List Entry) : List Entry :=
  l.mergeSort fun a b => decide (b.value ≤ a.value)

/-- Function `processTransactionsForVisualization` of the richer visualize revision:
filter, group, map each bucket to a chart entry with a capitalized label,
and sort by value descending.  `totals` is accepted and unused, as in the
source. -/
def processTransactionsForVisualization (transactions : List Txn)
    (groupingMethod filterType query : String) (totals : List (String × Rat))
    (queryKeywords : List String) (monthFmt : String → String) (today : String) :
    List Entry :=
  let _ := totals
  let filteredTransactions := filterTransactionsByQuery transactions query queryKeywords filterType
  let groupedData := groupTransactions filteredTransactions groupingMethod monthFmt today
  let result := groupedData.map fun p =>
    Entry.mk (capitalizeLabel p.1) p.2.totalAmount p.2.mostRecentDate
  sortEntriesDesc result

/-! ## The legacy visualize revision (`visualize-tool.ts`): filtering -/

/-- Normalized-description count used by the inline recurring branch of the
legacy processor.  Unlike `findRecurringTransactions` it has no presence
guard: an absent description would throw, so this count is only consulted
when every description is present (empty strings are counted as ""). -/
def descCountViz (l : List Txn) (s : String) : Nat :=
  l.countP fun t => normDesc (jsOrStr t.description "") == s

/-- The inline `recurring_only` branch of the legacy processor.  The source
calls `t.description.toLowerCase()` with no guard, so any record lacking a
description makes the branch throw a `TypeError`; this is modelled with
`Except`. -/
def vizRecurringInline (transactions : List Txn) : Except String (List Txn) :=
  if transactions.all (fun t => t.description.isSome) then
    Except.ok (transactions.filter fun t =>
      decide (descCountViz transactions (normDesc (jsOrStr t.description "")) > 1))
  else
    Except.error "TypeError: cannot read toLowerCase of undefined description"

/-- The type-filter step of the legacy processor (`income_only`,
`expenses_only`, `recurring_only`, otherwise a pass-through copy). -/
def vizTypeFilter (transactions : List Txn) (filterType : String) :
    Except String (List Txn) :=
  if filterType = "income_only" then
    Except.ok (transactions.filter fun t =>
      t.type == some "income" ||
        (match t.amount with
         | some a => decide (a > 0)
         | none => false))
  else if filterType = "expenses_only" then
    Except.ok (transactions.filter fun t =>
      t.type == some "expense" ||
        (match t.amount with
         | some a => decide (a < 0)
         | none => false))
  else if filterType = "recurring_only" then
    vizRecurringInline transactions
  else
    Except.ok transactions

/-- The filtered set the legacy processor hands to grouping: the type filter
followed by the leniency rule — when fewer than 3 records survive out of more
than 5 candidates, the unfiltered list is used instead. -/
def vizFiltered (transactions : List Txn) (filterType : String) :
    Except String (List Txn) :=
  match vizTypeFilter transactions filterType with
  | Except.error e => Except.error e
  | Except.ok filtered =>
    Except.ok
      (if filtered.length < 3 && transactions.length > 5 then transactions
       else filtered)

/-! ## The legacy visualize revision: grouping and assembly -/

/-- The (capitalized) grouping key of one record in the legacy processor. -/
def vizGroupKey (groupingMethod : String) (t : Txn) : String :=
  let key :=
    if groupingMethod = "by_date" then jsOrStr t.date ""
    else if groupingMethod = "by_month" then
      match t.date with
      | some d => if d = "" then "Unknown" else String.mk (d.toList.take 7)
      | none => "Unknown"
    else if groupingMethod = "by_category" then
      jsOrStr t.category (jsOrStr t.type "Uncategorized")
    else if groupingMethod = "by_type" then jsOrStr t.type "Unknown"
    else if groupingMethod = "by_description" then jsOrStr t.description "Unknown"
    else jsOrStr t.category (jsOrStr t.type "Uncategorized")
  capitalizeLabelViz key

/-- One step of the legacy grouping loop over the label-keyed totals map. -/
def vizGroupStep (groupingMethod : String) (acc : List (String × Rat)) (t : Txn) :
    List (String × Rat) :=
  let key := vizGroupKey groupingMethod t
  let amount := jsAmountAbs t.amount
  if acc.any (fun p => p.1 == key) then
    acc.map fun p => if p.1 = key then (p.1, p.2 + amount) else p
  else
    acc ++ [(key, amount)]

/-- The legacy grouping: an insertion-ordered map from capitalized label to
summed absolute amount. -/
def vizGroup (transactions : List Txn) (groupingMethod : String) :
    List (String × Rat) :=
  transactions.foldl (vizGroupStep groupingMethod) []

/-- Function `getDateForLabel`: date-shaped labels pass through; otherwise the date of
the first filtered record whose capitalized category, type or description
equals the label; `today` models `new Date().toISOString().split("T")[0]`. -/
def getDateForLabel (label : String) (transactions : List Txn) (today : String) :
    String :=
  if isDateShape label then label
  else
    match transactions.find? (fun t =>
        capitalizeLabelViz (jsOrStr t.category "") == label ||
        capitalizeLabelViz (jsOrStr t.type "") == label ||
        capitalizeLabelViz (jsOrStr t.description "") == label) with
    | some t => jsOrStr t.date today
    | none => today

/-- One synthetic padding entry, built from the current first element of the
result (or from built-in defaults while the result is empty).  `i` is the
loop counter and `r` the `Math.random()` draw of this iteration. -/
def synthEntry (res : List Entry) (i : Nat) (r : Rat) (today : String) : Entry :=
  match res.head? with
  | some e0 =>
    { label := jsOrStrS e0.label "Recurring Item" ++ " " ++ Nat.repr (i + 1)
      value := jsOrRat e0.value 100 * (7/10 + r * (6/10))
      date := jsOrStrS e0.date today }
  | none =>
    { label := "Recurring Item" ++ " " ++ Nat.repr (i + 1)
      value := 100 * (7/10 + r * (6/10))
      date := today }

/-- The shape of a synthetic entry built from a first element `e0` at loop
counter `i` with random draw `r` (the non-empty case of `synthEntry`). -/
def synthFrom (e0 : Entry) (i : Nat) (r : Rat) (today : String) : Entry :=
  { label := jsOrStrS e0.label "Recurring Item" ++ " " ++ Nat.repr (i + 1)
    value := jsOrRat e0.value 100 * (7/10 + r * (6/10))
    date := jsOrStrS e0.date today }

/-- The synthetic-padding loop `for (let i = result.length; i < 5; i++)`:
each iteration appends one jittered entry derived from the current first
element.  `rand i` models the `Math.random()` draw of iteration `i`; the
first argument counts the remaining iterations (`5 - i`), so the loop is
structurally recursive. -/
def padLoop (today : String) (rand : Nat → Rat) : Nat → Nat → List Entry → List Entry
  | 0, _, res => res
  | n + 1, i, res => padLoop today rand n (i + 1) (res ++ [synthEntry res i (rand i) today])

/-- The padding stage of the legacy processor: when fewer than 3 entries
remain and the query mentions "recurring", pad with synthetic entries up to
5. -/
def padRecurring (res : List Entry) (query today : String) (rand : Nat → Rat) :
    List Entry :=
  if res.length < 3 && strContains (jsToLower query) "recurring" then
    padLoop today rand (5 - res.length) res.length res
  else res

/-- Function `processTransactionsForVisualization` of the legacy visualize revision:
type filter with leniency, grouping, entry assembly with per-label dates,
synthetic padding, and the final sort by value descending. -/
def processVizLegacy (transactions : List Txn) (groupingMethod filterType query : String)
    (today : String) (rand : Nat → Rat) : Except String (List Entry) :=
  match vizFiltered transactions filterType with
  | Except.error e => Except.error e
  | Except.ok filteredTransactions =>
    let groupedData := vizGroup filteredTransactions groupingMethod
    let result := groupedData.map fun p =>
      Entry.mk p.1 p.2 (getDateForLabel p.1 filteredTransactions today)
    Except.ok (sortEntriesDesc (padRecurring result query today rand))

/-! ## The finance summary revision (`part_002`): score-threshold filtering -/

/-- The query terms: lower-cased whitespace tokens of length greater than 2. -/
def queryTermsOf (query : String) : List String :=
  (splitWs (jsToLower query)).filter fun term => term.length > 2

/-- Digits to a natural number. -/
def digitsToNat (ds : List Char) : Nat :=
  ds.foldl (fun acc c => acc * 10 + (c.toNat - '0'.toNat)) 0

/-- Parse a digit run with an optional fractional part starting at the head
of `cs` (which is known to start with a digit): the `\d+(\.\d+)?` match. -/
def numHere (cs : List Char) : Rat :=
  let intDigits := cs.takeWhile Char.isDigit
  let rest := cs.dropWhile Char.isDigit
  let intPart : Rat := (digitsToNat intDigits : Nat)
  match rest with
  | '.' :: r2 =>
    let fracDigits := r2.takeWhile Char.isDigit
    if fracDigits.isEmpty then intPart
    else intPart + (digitsToNat fracDigits : Rat) / ((10 : Rat) ^ fracDigits.length)
  | _ => intPart

/-- Evaluation of `term.match(/\d+(\.\d+)?/)` followed by `parseFloat`: the value of the
first maximal digit run (with optional decimal part) of the term, if any. -/
def extractFirstNum (term : String) : Option Rat :=
  let rec go : List Char → Option Rat
    | [] => none
    | c :: rest => if c.isDigit then some (numHere (c :: rest)) else go rest
  go term.toList

/-- The three-letter month prefixes of the source's month regex. -/
def monthTokens : List String :=
  ["jan", "feb", "mar", "apr", "may", "jun", "jul", "aug", "sep", "oct", "nov", "dec"]

/-- The month regex test `/jan|feb|…|dec/.test(term)`: some month token occurs in the term. -/
def monthTokenIn (term : String) : Bool :=
  monthTokens.any fun m => strContains term m

/-- Clause `descriptionMatch`: the description is present (truthy) and some query
term occurs in its lower-casing. -/
def descriptionMatch (query : String) (t : Txn) : Bool :=
  jsTruthyStr t.description &&
    (queryTermsOf query).any fun term =>
      strContains (jsToLower (jsOrStr t.description "")) term

/-- Clause `categoryMatch`. -/
def categoryMatch (query : String) (t : Txn) : Bool :=
  jsTruthyStr t.category &&
    (queryTermsOf query).any fun term =>
      strContains (jsToLower (jsOrStr t.category "")) term

/-- Clause `topLevelCategoryMatch`. -/
def topLevelCategoryMatch (query : String) (t : Txn) : Bool :=
  jsTruthyStr t.topLevelCategory &&
    (queryTermsOf query).any fun term =>
      strContains (jsToLower (jsOrStr t.topLevelCategory "")) term

/-- Clause `amountMatch`: some term carries a number and — when the amount is truthy
(present and nonzero) — that number is strictly within 5 of the amount. -/
def amountMatch (query : String) (t : Txn) : Bool :=
  (queryTermsOf query).any fun term =>
    match extractFirstNum term, t.amount with
    | some queryAmount, some a =>
      if a = 0 then false else decide (jsAbsRat (a - queryAmount) < 5)
    | _, _ => false

/-- Clause `dateMatch`: some term that looks like a year (contains "202") or month
token occurs in the lower-cased date string. -/
def dateMatch (query : String) (t : Txn) : Bool :=
  (queryTermsOf query).any fun term =>
    match t.date with
    | some d =>
      if d = "" then false
      else if strContains term "202" || monthTokenIn term then
        strContains (jsToLower d) term
      else false
    | none => false

/-- The disjunction of the five term-match tests of `getFinanceData`. -/
def financeMatchPart (query : String) (t : Txn) : Bool :=
  descriptionMatch query t || categoryMatch query t || topLevelCategoryMatch query t ||
    amountMatch query t || dateMatch query t

/-- The record-keeping predicate of the `part_002` `getFinanceData` filter:
drop when the attached score compares below `0.7` (an absent score compares
as `false`, hence passes), otherwise keep when some term-match test fires. -/
def financeKeep (query : String) (t : Txn) : Bool :=
  if jsLtOptNum t.score (7/10) then false else financeMatchPart query t

/-- The `part_002` relevance filter over a candidate list. -/
def financeFilter (query : String) (l : List Txn) : List Txn :=
  l.filter (financeKeep query)

/-! ## The finance summary revision (`finance-tool.ts`, second revision):
summary assembly -/

/-- The completeness test of the summary formatter: all of date, amount,
currencyCode, description, category, type and topLevelCategory truthy. -/
def isCompleteTxn (t : Txn) : Bool :=
  jsTruthyStr t.date && jsTruthyNum t.amount && jsTruthyStr t.currencyCode &&
    jsTruthyStr t.description && jsTruthyStr t.category && jsTruthyStr t.type &&
    jsTruthyStr t.topLevelCategory

/-- One rendered summary line; incomplete records render as the empty string
(and are later dropped by `.filter(Boolean)`).  `numToStr` models JavaScript
number-to-string interpolation. -/
def fmtTxnLine (numToStr : Rat → String) (t : Txn) : String :=
  if isCompleteTxn t then
    "- Date: " ++ jsOrStr t.date "" ++ ", Amount: " ++
      numToStr (jsOrNumOpt t.amount 0) ++ " " ++ jsOrStr t.currencyCode "" ++
      ", Description: " ++ jsOrStr t.description "" ++ ", Category: " ++
      jsOrStr t.category "" ++ ", User: " ++ jsOrStr t.userGuid "N/A" ++
      ", Top Level Category: " ++ jsOrStr t.topLevelCategory "" ++ ", Type: " ++
      jsOrStr t.type ""
  else ""

/-- The summary tail of `getFinanceData` (second `finance-tool.ts` revision):
sort by parsed date descending (`dateMs` models `new Date(d).getTime()`),
keep the first 20, render and join the complete records, and fall back to
the fixed "No valid transactions found." message when nothing rendered. -/
def financeSummary (dateMs : Option String → Int) (numToStr : Rat → String)
    (allTransactions : List Txn) : String :=
  let sorted := allTransactions.mergeSort fun a b =>
    decide (dateMs b.date ≤ dateMs a.date)
  let limited := sorted.take 20
  let lines := (limited.map (fmtTxnLine numToStr)).filter fun s => s ≠ ""
  let transactionDescriptions := joinWith "\n" lines
  if transactionDescriptions = "" then "No valid transactions found."
  else
    "Found " ++ Nat.repr limited.length ++ " relevant transactions:\n" ++
      transactionDescriptions

/-! ## JSON values and `JSON.parse` (for the record extractor) -/

/-- JSON values as produced by `JSON.parse`. -/
inductive Json where
  | null : Json
  | bool : Bool → Json
  | num : Rat → Json
  | str : String → Json
  | arr : List Json → Json
  | obj : List (String × Json) → Json

/-- Skip JSON whitespace. -/
def skipWsJ (cs : List Char) : List Char :=
  cs.dropWhile fun c => c = ' ' || c = '\t' || c = '\n' || c = '\r'

/-- Parse the body of a JSON string literal after the opening quote,
returning the decoded string and the input after the closing quote.  The
`\uXXXX` escape is decoded from its four hex digits. -/
def parseStrBody : List Char → List Char → Option (String × List Char)
  | [], _ => none
  | '"' :: rest, acc => some (String.mk acc.reverse, rest)
  | '\\' :: rest, acc =>
    match rest with
    | '"' :: r2 => parseStrBody r2 ('"' :: acc)
    | '\\' :: r2 => parseStrBody r2 ('\\' :: acc)
    | '/' :: r2 => parseStrBody r2 ('/' :: acc)
    | 'b' :: r2 => parseStrBody r2 ('\x08' :: acc)
    | 'f' :: r2 => parseStrBody r2 ('\x0c' :: acc)
    | 'n' :: r2 => parseStrBody r2 ('\n' :: acc)
    | 'r' :: r2 => parseStrBody r2 ('\r' :: acc)
    | 't' :: r2 => parseStrBody r2 ('\t' :: acc)
    | 'u' :: h1 :: h2 :: h3 :: h4 :: r2 =>
      let hv := fun (c : Char) =>
        let lc := c.toLower
        if c.isDigit then some (c.toNat - 48)
        else if 'a' ≤ lc && lc ≤ 'f' then some (lc.toNat - 87)
        else none
      match hv h1, hv h2, hv h3, hv h4 with
      | some a, some b, some c, some d =>
        parseStrBody r2 (Char.ofNat (((a * 16 + b) * 16 + c) * 16 + d) :: acc)
      | _, _, _, _ => none
    | _ => none
  | c :: rest, acc => parseStrBody rest (c :: acc)

/-- Parse a JSON number at the head of the input: optional minus sign, digit
run, optional fraction, optional exponent. -/
def parseNumJ (cs : List Char) : Option (Rat × List Char) :=
  let signed := cs.head? = some '-'
  let cs1 := if signed then cs.tail else cs
  let intDigits := cs1.takeWhile Char.isDigit
  if intDigits.isEmpty then none
  else
    let rest := cs1.dropWhile Char.isDigit
    let base : Rat := (digitsToNat intDigits : Nat)
    let (withFrac, rest2) :=
      match rest with
      | '.' :: r2 =>
        let fracDigits := r2.takeWhile Char.isDigit
        if fracDigits.isEmpty then (base, rest)
        else
          (base + (digitsToNat fracDigits : Rat) / ((10 : Rat) ^ fracDigits.length),
           r2.dropWhile Char.isDigit)
      | _ => (base, rest)
    let (withExp, rest3) :=
      match rest2 with
      | 'e' :: r3 | 'E' :: r3 =>
        let expNeg := r3.head? = some '-'
        let r4 := if r3.head? = some '-' || r3.head? = some '+' then r3.tail else r3
        let expDigits := r4.takeWhile Char.isDigit
        if expDigits.isEmpty then (withFrac, rest2)
        else
          let e := digitsToNat expDigits
          (if expNeg then withFrac / ((10 : Rat) ^ e) else withFrac * ((10 : Rat) ^ e),
           r4.dropWhile Char.isDigit)
      | _ => (withFrac, rest2)
    some ((if signed then -withExp else withExp), rest3)

mutual

/-- Recursive-descent JSON value parsing with fuel (the fuel is an upper
bound on recursion depth; the input length plus one always suffices). -/
def parseValJ : Nat → List Char → Option (Json × List Char)
  | 0, _ => none
  | n + 1, cs =>
    match skipWsJ cs with
    | 'n' :: 'u' :: 'l' :: 'l' :: rest => some (Json.null, rest)
    | 't' :: 'r' :: 'u' :: 'e' :: rest => some (Json.bool true, rest)
    | 'f' :: 'a' :: 'l' :: 's' :: 'e' :: rest => some (Json.bool false, rest)
    | '"' :: rest =>
      match parseStrBody rest [] with
      | some (s, rest2) => some (Json.str s, rest2)
      | none => none
    | '[' :: rest =>
      (match skipWsJ rest with
       | ']' :: rest2 => some (Json.arr [], rest2)
       | _ =>
         match parseArrElemsJ n (skipWsJ rest) with
         | some (xs, rest2) => some (Json.arr xs, rest2)
         | none => none)
    | '\x7b' :: rest =>
      (match skipWsJ rest with
       | '\x7d' :: rest2 => some (Json.obj [], rest2)
       | _ =>
         match parseObjFieldsJ n (skipWsJ rest) with
         | some (fs, rest2) => some (Json.obj fs, rest2)
         | none => none)
    | other =>
      match parseNumJ other with
      | some (q, rest) => some (Json.num q, rest)
      | none => none

/-- Parse one or more comma-separated array elements up to `]`. -/
def parseArrElemsJ : Nat → List Char → Option (List Json × List Char)
  | 0, _ => none
  | n + 1, cs =>
    match parseValJ n cs with
    | none => none
    | some (v, rest) =>
      match skipWsJ rest with
      | ',' :: rest2 =>
        match parseArrElemsJ n rest2 with
        | some (xs, rest3) => some (v :: xs, rest3)
        | none => none
      | ']' :: rest2 => some ([v], rest2)
      | _ => none

/-- Parse one or more comma-separated object fields up to the closing
brace. -/
def parseObjFieldsJ : Nat → List Char → Option (List (String × Json) × List Char)
  | 0, _ => none
  | n + 1, cs =>
    match skipWsJ cs with
    | '"' :: rest =>
      (match parseStrBody rest [] with
       | none => none
       | some (key, rest2) =>
         match skipWsJ rest2 with
         | ':' :: rest3 =>
           (match parseValJ n rest3 with
            | none => none
            | some (v, rest4) =>
              match skipWsJ rest4 with
              | ',' :: rest5 =>
                (match parseObjFieldsJ n rest5 with
                 | some (fs, rest6) => some ((key, v) :: fs, rest6)
                 | none => none)
              | '\x7d' :: rest5 => some ([(key, v)], rest5)
              | _ => none)
         | _ => none)
    | _ => none

end

/-- JavaScript `JSON.parse`: parse a complete JSON document (trailing whitespace
allowed, trailing garbage rejected).  A parse failure — where the JavaScript
source throws a `SyntaxError` caught by the surrounding `try` — is `none`. -/
def parseJson (s : String) : Option Json :=
  match parseValJ (s.toList.length + 1) s.toList with
  | some (v, rest) => if (skipWsJ rest).isEmpty then some v else none
  | none => none

/-- JavaScript truthiness of a JSON value (`null`, `false`, `0` and `""` are
falsy). -/
def jsonTruthy : Json → Bool
  | Json.null => false
  | Json.bool b => b
  | Json.num q => q ≠ 0
  | Json.str s => s ≠ ""
  | Json.arr _ => true
  | Json.obj _ => true

/-- Property access on a parsed object: the value of the last binding of the
key (`JSON.parse` keeps the last duplicate), `none` (i.e. `undefined`) when
absent or when the value is not an object. -/
def jsonGet (j : Json) (key : String) : Option Json :=
  match j with
  | Json.obj fs => fs.foldl (fun acc p => if p.1 = key then some p.2 else acc) none
  | _ => none

/-- Append or overwrite one field, preserving first-insertion order
(JavaScript object semantics for duplicate keys). -/
def objInsert (acc : List (String × Json)) (p : String × Json) :
    List (String × Json) :=
  if acc.any (fun q => q.1 == p.1) then
    acc.map fun q => if q.1 = p.1 then (q.1, p.2) else q
  else acc ++ [p]

/-- JavaScript `Object.values`: field values in first-insertion order with last-wins
duplicates for objects, the elements for arrays, `[]` otherwise. -/
def jsonValues : Json → List Json
  | Json.obj fs => (fs.foldl objInsert []).map fun p => p.2
  | Json.arr xs => xs
  | _ => []

/-! ## The record extractor (`getVisualizationData`, first legacy revision) -/

/-- The metadata carried by a retrieval hit. -/
structure HitMeta where
  text : Option String
deriving Repr

/-- A retrieval hit: an optional similarity score and optional metadata. -/
structure Hit where
  score : Option Rat := none
  metadata : Option HitMeta := none
deriving Repr

/-- The guarded parse of one hit: `undefined`/falsy metadata text and texts
that `JSON.parse` rejects (where the source logs and continues) both give
`none`. -/
def hitParsed (h : Hit) : Option Json :=
  match h.metadata with
  | none => none
  | some m =>
    match m.text with
    | none => none
    | some text => if text = "" then none else parseJson text

/-- The test `typeof x === "object"` for a parsed JSON value. -/
def jsonIsObject : Json → Bool
  | Json.null => true
  | Json.arr _ => true
  | Json.obj _ => true
  | _ => false

/-- The records one hit contributes: nothing when metadata or its text is
missing/falsy or the text fails to parse; otherwise the truthy values of the
parsed `transactions` collection that carry a truthy `date`. -/
def hitRecords (h : Hit) : List Json :=
  match hitParsed h with
  | none => []
  | some parsedData =>
    match jsonGet parsedData "transactions" with
    | some transactions =>
      if jsonTruthy transactions && jsonIsObject transactions then
        (jsonValues transactions).filter fun transaction =>
          jsonTruthy transaction &&
            (match jsonGet transaction "date" with
             | some d => jsonTruthy d
             | none => false)
      else []
    | none => []

/-- The extraction loop: `results.forEach(...)` pushing each hit's kept
transactions onto the accumulator. -/
def extractTransactions (results : List Hit) : List Json :=
  results.foldl (fun acc h => acc ++ hitRecords h) []

deriving instance DecidableEq for Except

/-! ## Spec-side predicates and concrete scenario data -/

/-- Survival predicate written from the claim's words (C5), for comparison
with `financeKeep`: score not below 0.7, and some query term matches by
description/category/topLevelCategory substring, by carrying a number (the
first maximal digit run of the term) within 5 units of the record's amount,
or by being a year/month-like token contained in the date string. -/
def specKeepOriginal (query : String) (t : Txn) : Prop :=
  jsLtOptNum t.score (7/10) = false ∧
  ∃ term ∈ queryTermsOf query,
    (∃ d, t.description = some d ∧ d ≠ "" ∧ strContains (jsToLower d) term = true) ∨
    (∃ c, t.category = some c ∧ c ≠ "" ∧ strContains (jsToLower c) term = true) ∨
    (∃ c, t.topLevelCategory = some c ∧ c ≠ "" ∧ strContains (jsToLower c) term = true) ∨
    (∃ a qa, t.amount = some a ∧ extractFirstNum term = some qa ∧
      jsAbsRat (a - qa) < 5) ∨
    (∃ d, t.date = some d ∧ d ≠ "" ∧
      (strContains term "202" = true ∨ monthTokenIn term = true) ∧
      strContains (jsToLower d) term = true)

/-- The amended survival predicate (C5): as `specKeepOriginal`, but the
amount clause additionally requires the amount to be nonzero, matching the
source's truthiness test on `transaction.amount`. -/
def specKeepAmended (query : String) (t : Txn) : Prop :=
  jsLtOptNum t.score (7/10) = false ∧
  ∃ term ∈ queryTermsOf query,
    (∃ d, t.description = some d ∧ d ≠ "" ∧ strContains (jsToLower d) term = true) ∨
    (∃ c, t.category = some c ∧ c ≠ "" ∧ strContains (jsToLower c) term = true) ∨
    (∃ c, t.topLevelCategory = some c ∧ c ≠ "" ∧ strContains (jsToLower c) term = true) ∨
    (∃ a qa, t.amount = some a ∧ a ≠ 0 ∧ extractFirstNum term = some qa ∧
      jsAbsRat (a - qa) < 5) ∨
    (∃ d, t.date = some d ∧ d ≠ "" ∧
      (strContains term "202" = true ∨ monthTokenIn term = true) ∧
      strContains (jsToLower d) term = true)

/-- First record of end-to-end scenario A. -/
def scenarioT1 : Txn :=
  { date := some "2024-01-05", amount := some (-50), type := some "expense",
    category := some "Food", description := some "Cafe" }

/-- Second record of end-to-end scenario A. -/
def scenarioT2 : Txn :=
  { date := some "2024-01-20", amount := some (-50), type := some "expense",
    category := some "Food", description := some "Cafe" }

/-- A six-record candidate list (four rent records, two coffee records) used
to probe the leniency rule. -/
def sixTxns : List Txn :=
  [ { date := some "2024-01-01", amount := some (-1200), type := some "expense",
      category := some "housing", description := some "rent payment" },
    { date := some "2024-01-08", amount := some (-1200), type := some "expense",
      category := some "housing", description := some "rent payment" },
    { date := some "2024-01-15", amount := some (-1200), type := some "expense",
      category := some "housing", description := some "rent payment" },
    { date := some "2024-01-22", amount := some (-1200), type := some "expense",
      category := some "housing", description := some "rent payment" },
    { date := some "2024-02-01", amount := some (-4), type := some "expense",
      category := some "food", description := some "coffee shop" },
    { date := some "2024-02-02", amount := some (-4), type := some "expense",
      category := some "food", description := some "coffee shop" } ]

/-- A retrieval hit whose metadata text is not valid JSON. -/
def badJsonHit : Hit :=
  { score := some (9/10), metadata := some ⟨some "\x7bnot json"⟩ }

/-- A record with a similarity score but amount `0` — the JavaScript
truthiness test on `transaction.amount` rejects it. -/
def zeroAmountTxn : Txn :=
  { date := some "2024-01-05", amount := some 0, description := some "zz",
    category := some "zz", topLevelCategory := some "zz",
    type := some "expense", score := some (9/10) }

/-- A record with no description field at all. -/
def noDescTxn : Txn :=
  { amount := some 5 }

/-- A record missing most fields (only a date), hence incomplete for the
summary formatter. -/
def soloIncompleteTxn : Txn :=
  { date := some "2024-01-05" }

/-- A record extracted from a hit that carried no similarity score. -/
def scorelessTxn : Txn :=
  { date := some "2024-02-01", amount := some (-6),
    description := some "Coffee Shop", category := some "Food", score := none }

/-- Two records sharing the description "Spotify" (a recurring pair). -/
def spotifyA : Txn :=
  { date := some "2024-01-01", amount := some (-10), description := some "Spotify" }

/-- Second record of the recurring pair. -/
def spotifyB : Txn :=
  { date := some "2024-02-01", amount := some (-10), description := some "Spotify" }

/-- A one-record list for probing grouping methods. -/
def miscTxn : Txn :=
  { date := some "2024-03-03", amount := some 12, category := some "Transport",
    type := some "expense", description := some "Taxi ride" }

/-- A single real chart entry for probing the padding stage. -/
def netflixEntry : Entry :=
  ⟨"Netflix", 10, "2023-12-31"⟩

/-! ## Shared helper lemmas -/

/-- Folding an append-accumulator over a list concatenates the per-element
contributions after the initial accumulator. -/
theorem foldl_append_flatten {α β : Type} (g : α → List β) (hits : List α)
    (acc : List β) :
    hits.foldl (fun a h => a ++ g h) acc = acc ++ (hits.map g).flatten := by
  induction hits generalizing acc with
  | nil => simp
  | cons h t ih => simp [ih, List.append_assoc]

/-- Function `jsAbsRat` is the absolute value. -/
theorem jsAbsRat_eq_abs (x : Rat) : jsAbsRat x = |x| := by
  unfold jsAbsRat
  split
  · exact (abs_of_neg (by assumption)).symm
  · exact (abs_of_nonneg (not_lt.mp (by assumption))).symm

/-- Truthiness: `(some d) || ""` is just `d`. -/
theorem jsOrStr_some_empty (d : String) : jsOrStr (some d) "" = d := by
  by_cases h : d = "" <;> simp [jsOrStr, h]

/-! ## C1 -/

/-- C1: for the two scenario-A records, grouping "by_category" under filter
"all" yields exactly the bucket `{label := "Food", value := 100,
date := "2024-01-20"}`: the value is the sum of the absolute amounts and the
date the greatest date string of the bucket. -/
theorem c1_scenario_a :
    processTransactionsForVisualization [scenarioT1, scenarioT2] "by_category" "all"
      "spending by category" [] [] (fun _ => "") "1970-01-01" =
      [Entry.mk "Food" 100 "2024-01-20"] := by
  simp only [processTransactionsForVisualization, sortEntriesDesc]
  have h :
      (groupTransactions
          (filterTransactionsByQuery [scenarioT1, scenarioT2] "spending by category" [] "all")
          "by_category" (fun _ => "") "1970-01-01").map
        (fun p => Entry.mk (capitalizeLabel p.1) p.2.totalAmount p.2.mostRecentDate) =
      [Entry.mk "Food" 100 "2024-01-20"] := by decide
  rw [h, List.mergeSort_singleton]

/-! ## C9 -/

/-- C9: a record whose attached similarity score is absent is never dropped
by the 0.7 minimum-score check — the `undefined < 0.7` comparison is false,
so the record proceeds to the term-matching tests. -/
theorem c9_scoreless_passes :
    ∀ (query : String) (t : Txn), t.score = none →
      jsLtOptNum t.score (7/10) = false ∧
      financeKeep query t = financeMatchPart query t := by
  intro query t h
  refine ⟨by rw [h]; rfl, ?_⟩
  simp [financeKeep, h, jsLtOptNum]

/-- Witness for C9 at a concrete scoreless record. -/
theorem c9_scoreless_witness :
    jsLtOptNum scorelessTxn.score (7/10) = false ∧
    financeKeep "coffee in 2024" scorelessTxn =
      financeMatchPart "coffee in 2024" scorelessTxn :=
  c9_scoreless_passes "coffee in 2024" scorelessTxn rfl

/-! ## C3 -/

/-- C3: the record extractor is a total function equal to the concatenation
of the per-hit contributions, a hit whose metadata text is missing or fails
JSON parsing contributes nothing, and the batch holding only the `"{not
json"` hit extracts to the empty list. -/
theorem c3_extractor_skips :
    (∀ results : List Hit, extractTransactions results = (results.map hitRecords).flatten) ∧
    (∀ h : Hit, hitParsed h = none → hitRecords h = []) ∧
    extractTransactions [badJsonHit] = [] := by
  refine ⟨fun results => ?_, fun h hh => ?_, ?_⟩
  · simpa using foldl_append_flatten hitRecords results []
  · simp [hitRecords, hh]
  · rfl

/-- Witness for C3: the unparsable hit's contribution is empty. -/
theorem c3_extractor_witness : hitRecords badJsonHit = [] :=
  c3_extractor_skips.2.1 badJsonHit rfl

/-! ## C2 -/

/-- Counterexample to C2 as stated: in the revision that supports keyword
filtering (`part_001`), a 6-record candidate list whose keyword filter keeps
only 2 records hands exactly those 2 records to grouping — no leniency rule
restores the unfiltered list there. -/
theorem c2_counterexample :
    sixTxns.length = 6 ∧
    (filterTransactionsByQuery sixTxns "coffee chart" ["coffee"] "all").length = 2 ∧
    filterTransactionsByQuery sixTxns "coffee chart" ["coffee"] "all" ≠ sixTxns := by
  refine ⟨rfl, by decide, by decide⟩

/-- C2 amended: the leniency rule lives in the legacy visualize processor,
after its type/recurring filter: whenever that filter succeeds and leaves
fewer than 3 of more than 5 candidates, grouping receives the full
unfiltered list. -/
theorem c2_leniency_amended :
    ∀ (transactions : List Txn) (filterType : String) (kept : List Txn),
      vizTypeFilter transactions filterType = Except.ok kept →
      kept.length < 3 → transactions.length > 5 →
      vizFiltered transactions filterType = Except.ok transactions := by
  intro l ft kept hk h3 h5
  unfold vizFiltered
  rw [hk]
  simp [h3, h5]

/-- Witness for C2 amended: six expense records under `income_only` filter
to nothing, and the leniency rule restores all six. -/
theorem c2_leniency_witness :
    vizFiltered sixTxns "income_only" = Except.ok sixTxns :=
  c2_leniency_amended sixTxns "income_only" [] (by decide) (by decide) (by decide)

/-! ## C10 -/

/-- An unrecognized grouping method takes the default branch of the richer
revision's key computation, which is the `by_category` branch. -/
theorem groupKeyP_unrecognized (m : String) (mf : String → String) (t : Txn)
    (h1 : m ≠ "by_category") (h2 : m ≠ "by_merchant") (h3 : m ≠ "by_type")
    (h4 : m ≠ "by_month") (h5 : m ≠ "by_date") :
    groupKeyP m mf t = groupKeyP "by_category" mf t := by
  simp [groupKeyP, h1, h2, h3, h4, h5]

/-- An unrecognized grouping method takes the default branch of the legacy
revision's key computation, which is the `by_category` branch. -/
theorem vizGroupKey_unrecognized (m : String) (t : Txn)
    (h1 : m ≠ "by_date") (h2 : m ≠ "by_month") (h3 : m ≠ "by_category")
    (h4 : m ≠ "by_type") (h5 : m ≠ "by_description") :
    vizGroupKey m t = vizGroupKey "by_category" t := by
  simp [vizGroupKey, h1, h2, h3, h4, h5]

/-- C10: grouping with any method string outside the recognized names
produces exactly the buckets of `by_category` grouping, in both the richer
revision (`groupTransactions`) and the legacy revision (`vizGroup`). -/
theorem c10_unrecognized_grouping :
    ∀ m : String,
      m ∉ ["by_category", "by_merchant", "by_type", "by_month", "by_date",
           "by_description"] →
      ∀ (l : List Txn) (mf : String → String) (today : String),
        groupTransactions l m mf today = groupTransactions l "by_category" mf today ∧
        vizGroup l m = vizGroup l "by_category" := by
  intro m hm l mf today
  simp only [List.mem_cons, List.not_mem_nil, or_false, not_or] at hm
  obtain ⟨h1, h2, h3, h4, h5, h6⟩ := hm
  constructor
  · unfold groupTransactions
    have hstep : groupStep m mf today = groupStep "by_category" mf today := by
      funext acc t
      unfold groupStep
      rw [groupKeyP_unrecognized m mf t h1 h2 h3 h4 h5]
    rw [hstep]
  · unfold vizGroup
    have hstep : vizGroupStep m = vizGroupStep "by_category" := by
      funext acc t
      unfold vizGroupStep
      rw [vizGroupKey_unrecognized m t h5 h4 h1 h3 h6]
    rw [hstep]

/-- Witness for C10 at the unrecognized method "by_amount". -/
theorem c10_grouping_witness :
    groupTransactions [miscTxn] "by_amount" (fun _ => "") "1970-01-01" =
      groupTransactions [miscTxn] "by_category" (fun _ => "") "1970-01-01" ∧
    vizGroup [miscTxn] "by_amount" = vizGroup [miscTxn] "by_category" :=
  c10_unrecognized_grouping "by_amount" (by decide) [miscTxn] (fun _ => "") "1970-01-01"

/-! ## C4 -/

/-- Counterexample to C4 as stated: for the scenario-A records under filter
"income_only" (leniency not triggered), the visualization assembler returns
an empty data list — an empty payload, not a "no data found" message. -/
theorem c4_counterexample :
    processVizLegacy [scenarioT1, scenarioT2] "by_category" "income_only"
      "show my income" "2024-03-01" (fun _ => 0) = Except.ok [] := by
  have hf : vizFiltered [scenarioT1, scenarioT2] "income_only" = Except.ok [] := by
    decide
  have hp : padRecurring [] "show my income" "2024-03-01" (fun _ => 0) = [] := by
    decide
  simp only [processVizLegacy, hf]
  simp [vizGroup, hp, sortEntriesDesc, List.mergeSort_nil]

/-- C4 amended: the defined "No valid transactions found." fallback belongs
to the summary path — whenever every candidate record is incomplete, the
summary is exactly that message — while the visualization assembler answers
scenario B with an empty data list rather than a message or an error. -/
theorem c4_no_data_amended :
    (∀ (dateMs : Option String → Int) (numToStr : Rat → String) (l : List Txn),
      (∀ t ∈ l, isCompleteTxn t = false) →
      financeSummary dateMs numToStr l = "No valid transactions found.") ∧
    processVizLegacy [scenarioT1, scenarioT2] "by_category" "income_only"
      "show my income" "2024-03-01" (fun _ => 0) = Except.ok [] := by
  constructor
  · intro dateMs numToStr l hall
    unfold financeSummary
    have hlines :
        (((l.mergeSort fun a b => decide (dateMs b.date ≤ dateMs a.date)).take 20).map
            (fmtTxnLine numToStr)).filter (fun s => s ≠ "") = [] := by
      rw [List.filter_eq_nil_iff]
      intro s hs
      obtain ⟨t, ht, rfl⟩ := List.mem_map.mp hs
      have htl : t ∈ l := List.mem_mergeSort.mp (List.mem_of_mem_take ht)
      simp [fmtTxnLine, hall t htl]
    simp only [hlines]
    rfl
  · have hf : vizFiltered [scenarioT1, scenarioT2] "income_only" = Except.ok [] := by
      decide
    have hp : padRecurring [] "show my income" "2024-03-01" (fun _ => 0) = [] := by
      decide
    simp only [processVizLegacy, hf]
    simp [vizGroup, hp, sortEntriesDesc, List.mergeSort_nil]

/-- Witness for C4 amended at a concrete incomplete record. -/
theorem c4_no_data_witness :
    financeSummary (fun _ => 0) (fun _ => "") [soloIncompleteTxn] =
      "No valid transactions found." :=
  c4_no_data_amended.1 (fun _ => 0) (fun _ => "") [soloIncompleteTxn] (by decide)

/-! ## C6 -/

/-- Filtering by the recurring predicate does not change the count of a
normalized description that already occurs more than once: every record
carrying it survives the filter. -/
theorem descCount_findRecurring (l : List Txn) (s : String)
    (h : 1 < descCount l s) :
    descCount (findRecurringTransactions l) s = descCount l s := by
  unfold findRecurringTransactions descCount
  rw [List.countP_filter]
  apply List.countP_congr
  intro t ht
  cases hd : t.description with
  | none => simp [descMatches, hd]
  | some d =>
    by_cases hde : d = ""
    · simp [descMatches, hd, hde]
    · by_cases hm : normDesc d = s
      · have hpred : recurringPred l t = true := by
          simp only [recurringPred, hd, if_neg hde, decide_eq_true_eq, hm]
          unfold descCount at h
          exact h
        simp [descMatches, hd, hde, hm, hpred]
      · simp [descMatches, hd, hde, hm]

/-- Every member of the recurring filter's output still satisfies the
membership test recomputed over that output. -/
theorem recurringPred_of_mem_findRecurring (l : List Txn) (t : Txn)
    (ht : t ∈ findRecurringTransactions l) :
    recurringPred (findRecurringTransactions l) t = true := by
  obtain ⟨htl, hp⟩ := List.mem_filter.mp ht
  cases hd : t.description with
  | none =>
    simp only [recurringPred, hd] at hp
    exact Bool.noConfusion hp
  | some d =>
    simp only [recurringPred, hd] at hp ⊢
    by_cases hde : d = ""
    · rw [if_pos hde] at hp; exact absurd hp (by simp)
    · rw [if_neg hde] at hp
      have h1 : 1 < descCount l (normDesc d) := of_decide_eq_true hp
      rw [if_neg hde, descCount_findRecurring l _ h1]
      exact hp

/-- C6: the recurring filter is idempotent — applying it to its own output
returns that output unchanged, because membership depends only on the
normalized-description counts, which the filter preserves for every
surviving description. -/
theorem c6_recurring_idempotent :
    ∀ l : List Txn,
      findRecurringTransactions (findRecurringTransactions l) =
        findRecurringTransactions l := by
  intro l
  exact List.filter_eq_self.mpr fun t ht =>
    recurringPred_of_mem_findRecurring l t ht

/-! ## C7 -/

/-- Counterexample to C7 as stated: the inline recurring branch of the
legacy visualize processor has no presence guard, so a record without a
description makes the recurring filter throw instead of being excluded. -/
theorem c7_counterexample :
    noDescTxn.description = none ∧
    vizTypeFilter [noDescTxn] "recurring_only" =
      Except.error "TypeError: cannot read toLowerCase of undefined description" := by
  exact ⟨rfl, by decide⟩

/-- Normalized-description counts ignore records without a description. -/
theorem descCount_filter_isSome (l : List Txn) (s : String) :
    descCount (l.filter fun t => t.description.isSome) s = descCount l s := by
  unfold descCount
  rw [List.countP_filter]
  apply List.countP_congr
  intro t ht
  cases hd : t.description <;> simp [descMatches, hd]

/-- C7 amended: the standalone recurring filter (`findRecurringTransactions`)
never errors — records lacking a description are excluded from both the
count accumulation and the membership test, so the filter agrees with itself
run on only the described records, and every survivor has a description.
(The inline recurring branch of the legacy processor, by contrast, throws on
such records; see the counterexample.) -/
theorem c7_no_description_amended :
    ∀ l : List Txn,
      findRecurringTransactions l =
        findRecurringTransactions (l.filter fun t => t.description.isSome) ∧
      ∀ t ∈ findRecurringTransactions l, t.description.isSome = true := by
  intro l
  have hpred :
      recurringPred (l.filter fun t => t.description.isSome) = recurringPred l := by
    funext t
    unfold recurringPred
    cases hd : t.description with
    | none => rfl
    | some d =>
      by_cases hde : d = ""
      · simp [hde]
      · simp [hde, descCount_filter_isSome]
  constructor
  · unfold findRecurringTransactions
    rw [hpred, List.filter_filter]
    apply List.filter_congr
    intro t ht
    cases hd : t.description with
    | none => simp [recurringPred, hd]
    | some d => simp [hd]
  · intro t ht
    obtain ⟨htl, hp⟩ := List.mem_filter.mp ht
    unfold recurringPred at hp
    cases hd : t.description with
    | none => rw [hd] at hp; exact absurd hp (by simp)
    | some d => simp [hd]

/-- Witness for C7 amended on a list holding a described recurring pair and
one description-less record. -/
theorem c7_no_description_witness :
    findRecurringTransactions [spotifyA, spotifyB, noDescTxn] =
      findRecurringTransactions
        ([spotifyA, spotifyB, noDescTxn].filter fun t => t.description.isSome) ∧
    spotifyA.description.isSome = true :=
  ⟨(c7_no_description_amended [spotifyA, spotifyB, noDescTxn]).1,
   (c7_no_description_amended [spotifyA, spotifyB, noDescTxn]).2 spotifyA (by decide)⟩

/-! ## C8 -/

/-- A jittered value stays strictly within ±30% of its base. -/
theorem jitter_core (v r : Rat) (h0 : 0 ≤ r) (h1 : r < 1) :
    |v * (7/10 + r * (6/10)) - v| ≤ (3/10) * |v| := by
  have heq : v * (7/10 + r * (6/10)) - v = v * (r * (6/10) - 3/10) := by ring
  rw [heq, abs_mul]
  have hb : |r * (6/10) - 3/10| ≤ 3/10 := by
    rw [abs_le]
    constructor <;> nlinarith
  calc |v| * |r * (6/10) - 3/10| ≤ |v| * (3/10) :=
        mul_le_mul_of_nonneg_left hb (abs_nonneg v)
    _ = 3/10 * |v| := by ring

/-- The value of a synthetic entry built from a base entry of nonzero value
stays within ±30% of that value. -/
theorem jitter_bound (v r : Rat) (h0 : 0 ≤ r) (h1 : r < 1) (hv : v ≠ 0) :
    jsAbsRat (jsOrRat v 100 * (7/10 + r * (6/10)) - v) ≤ (3/10) * jsAbsRat v := by
  simp only [jsOrRat, if_neg hv, jsAbsRat_eq_abs]
  exact jitter_core v r h0 h1

/-- Counterexample to C8 as stated: with no real entry, a "recurring" query
and the (legitimate) random draws 0, the padded output's later synthetic
entries have value 49, which is not within ±30% of the default base 100 —
after the first push, jitter compounds on the first synthetic entry instead
of the default base. -/
theorem c8_counterexample :
    padRecurring [] "recurring" "2024-01-01" (fun _ => 0) =
      [ ⟨"Recurring Item 1", 70, "2024-01-01"⟩,
        ⟨"Recurring Item 1 2", 49, "2024-01-01"⟩,
        ⟨"Recurring Item 1 3", 49, "2024-01-01"⟩,
        ⟨"Recurring Item 1 4", 49, "2024-01-01"⟩,
        ⟨"Recurring Item 1 5", 49, "2024-01-01"⟩ ] ∧
    ¬ (jsAbsRat ((49 : Rat) - 100) ≤ (3/10) * jsAbsRat 100) := by
  exact ⟨by decide, by decide⟩

/-- C8 amended: under a "recurring" query with fewer than 3 entries, the
padding stage fills the output to exactly 5 entries.  When a real first
entry with nonzero value exists, every synthetic entry's value lies within
±30% of that value and its label and date derive from that entry.  When no
real entry exists, the first synthetic entry lies within ±30% of the default
base 100, and the later synthetic entries lie within ±30% of that first
synthetic entry's value (not necessarily of the default base). -/
theorem c8_padding_amended :
    ∀ (res : List Entry) (query today : String) (rand : Nat → Rat),
      (∀ i, 0 ≤ rand i ∧ rand i < 1) →
      res.length < 3 →
      strContains (jsToLower query) "recurring" = true →
      (padRecurring res query today rand).length = 5 ∧
      (∀ e0, res.head? = some e0 → e0.value ≠ 0 →
        ∀ e ∈ (padRecurring res query today rand).drop res.length,
          jsAbsRat (e.value - e0.value) ≤ (3/10) * jsAbsRat e0.value ∧
          e.date = jsOrStrS e0.date today ∧
          ∃ n, e.label = jsOrStrS e0.label "Recurring Item" ++ " " ++ Nat.repr n) ∧
      (res = [] →
        ∃ e0 rest, padRecurring res query today rand = e0 :: rest ∧
          jsAbsRat (e0.value - 100) ≤ 30 ∧
          ∀ e ∈ rest, jsAbsRat (e.value - e0.value) ≤ (3/10) * jsAbsRat e0.value) := by
  intro res q today rand hr hlen hq
  rcases res with _ | ⟨a, _ | ⟨b, _ | ⟨c, tl⟩⟩⟩
  · -- no real entry
    have hpad : padRecurring [] q today rand =
        Entry.mk ("Recurring Item" ++ " " ++ Nat.repr 1)
            (100 * (7/10 + rand 0 * (6/10))) today ::
          [synthFrom (Entry.mk ("Recurring Item" ++ " " ++ Nat.repr 1)
              (100 * (7/10 + rand 0 * (6/10))) today) 1 (rand 1) today,
           synthFrom (Entry.mk ("Recurring Item" ++ " " ++ Nat.repr 1)
              (100 * (7/10 + rand 0 * (6/10))) today) 2 (rand 2) today,
           synthFrom (Entry.mk ("Recurring Item" ++ " " ++ Nat.repr 1)
              (100 * (7/10 + rand 0 * (6/10))) today) 3 (rand 3) today,
           synthFrom (Entry.mk ("Recurring Item" ++ " " ++ Nat.repr 1)
              (100 * (7/10 + rand 0 * (6/10))) today) 4 (rand 4) today] := by
      simp only [padRecurring, hq, List.length_nil]
      rfl
    have hv0 : (100 : Rat) * (7/10 + rand 0 * (6/10)) ≠ 0 := by
      have h0 := (hr 0).1
      nlinarith
    refine ⟨by rw [hpad]; rfl, ?_, ?_⟩
    · intro e0 he0
      exact absurd he0 (by simp)
    · intro _
      refine ⟨_, _, hpad, ?_, ?_⟩
      · rw [jsAbsRat_eq_abs]
        calc |(100 : Rat) * (7/10 + rand 0 * (6/10)) - 100|
            ≤ (3/10) * |(100 : Rat)| := jitter_core 100 (rand 0) (hr 0).1 (hr 0).2
          _ = 30 := by norm_num
      · intro e he
        simp only [List.mem_cons, List.not_mem_nil, or_false] at he
        rcases he with rfl | rfl | rfl | rfl <;>
          exact jitter_bound _ _ (hr _).1 (hr _).2 hv0
  · -- one real entry
    have hpad : padRecurring [a] q today rand =
        [a, synthFrom a 1 (rand 1) today, synthFrom a 2 (rand 2) today,
         synthFrom a 3 (rand 3) today, synthFrom a 4 (rand 4) today] := by
      simp only [padRecurring, hq, List.length_cons, List.length_nil]
      rfl
    refine ⟨by rw [hpad]; rfl, ?_, ?_⟩
    · intro e0 he0 hv0 e he
      have ha : a = e0 := by simpa using he0
      subst ha
      rw [hpad] at he
      simp only [List.length_cons, List.length_nil, List.drop_succ_cons,
        List.drop_zero, List.mem_cons, List.not_mem_nil, or_false] at he
      rcases he with rfl | rfl | rfl | rfl <;>
        exact ⟨jitter_bound _ _ (hr _).1 (hr _).2 hv0, rfl, _, rfl⟩
    · intro h
      exact absurd h (by simp)
  · -- two real entries
    have hpad : padRecurring [a, b] q today rand =
        [a, b, synthFrom a 2 (rand 2) today, synthFrom a 3 (rand 3) today,
         synthFrom a 4 (rand 4) today] := by
      simp only [padRecurring, hq, List.length_cons, List.length_nil]
      rfl
    refine ⟨by rw [hpad]; rfl, ?_, ?_⟩
    · intro e0 he0 hv0 e he
      have ha : a = e0 := by simpa using he0
      subst ha
      rw [hpad] at he
      simp only [List.length_cons, List.length_nil, List.drop_succ_cons,
        List.drop_zero, List.mem_cons, List.not_mem_nil, or_false] at he
      rcases he with rfl | rfl | rfl <;>
        exact ⟨jitter_bound _ _ (hr _).1 (hr _).2 hv0, rfl, _, rfl⟩
    · intro h
      exact absurd h (by simp)
  · -- three or more entries: contradicts the hypothesis
    simp at hlen
    omega

/-- Witness for C8 amended: one real entry, "recurring" query, constant draw
one half. -/
theorem c8_padding_witness :
    (padRecurring [netflixEntry] "recurring bills" "2024-01-01"
      (fun _ => 1/2)).length = 5 :=
  (c8_padding_amended [netflixEntry] "recurring bills" "2024-01-01" (fun _ => 1/2)
    (fun _ => ⟨by norm_num, by norm_num⟩) (by decide) (by decide)).1

/-! ## C5 -/

/-- The description clause of the score-threshold filter, in existential
form. -/
theorem descriptionMatch_iff (q : String) (t : Txn) :
    descriptionMatch q t = true ↔
      ∃ term ∈ queryTermsOf q, ∃ d, t.description = some d ∧ d ≠ "" ∧
        strContains (jsToLower d) term = true := by
  unfold descriptionMatch
  rw [Bool.and_eq_true, List.any_eq_true]
  constructor
  · rintro ⟨htr, term, hmem, hc⟩
    cases hd : t.description with
    | none => rw [hd] at htr; exact absurd htr (by simp [jsTruthyStr])
    | some d =>
      rw [hd] at htr hc
      rw [jsOrStr_some_empty] at hc
      exact ⟨term, hmem, d, rfl, by simpa [jsTruthyStr] using htr, hc⟩
  · rintro ⟨term, hmem, d, hd, hde, hc⟩
    rw [hd]
    refine ⟨by simp [jsTruthyStr, hde], term, hmem, ?_⟩
    rw [jsOrStr_some_empty]
    exact hc

/-- The category clause, in existential form. -/
theorem categoryMatch_iff (q : String) (t : Txn) :
    categoryMatch q t = true ↔
      ∃ term ∈ queryTermsOf q, ∃ c, t.category = some c ∧ c ≠ "" ∧
        strContains (jsToLower c) term = true := by
  unfold categoryMatch
  rw [Bool.and_eq_true, List.any_eq_true]
  constructor
  · rintro ⟨htr, term, hmem, hc⟩
    cases hd : t.category with
    | none => rw [hd] at htr; exact absurd htr (by simp [jsTruthyStr])
    | some c =>
      rw [hd] at htr hc
      rw [jsOrStr_some_empty] at hc
      exact ⟨term, hmem, c, rfl, by simpa [jsTruthyStr] using htr, hc⟩
  · rintro ⟨term, hmem, c, hd, hde, hc⟩
    rw [hd]
    refine ⟨by simp [jsTruthyStr, hde], term, hmem, ?_⟩
    rw [jsOrStr_some_empty]
    exact hc

/-- The top-level-category clause, in existential form. -/
theorem topLevelCategoryMatch_iff (q : String) (t : Txn) :
    topLevelCategoryMatch q t = true ↔
      ∃ term ∈ queryTermsOf q, ∃ c, t.topLevelCategory = some c ∧ c ≠ "" ∧
        strContains (jsToLower c) term = true := by
  unfold topLevelCategoryMatch
  rw [Bool.and_eq_true, List.any_eq_true]
  constructor
  · rintro ⟨htr, term, hmem, hc⟩
    cases hd : t.topLevelCategory with
    | none => rw [hd] at htr; exact absurd htr (by simp [jsTruthyStr])
    | some c =>
      rw [hd] at htr hc
      rw [jsOrStr_some_empty] at hc
      exact ⟨term, hmem, c, rfl, by simpa [jsTruthyStr] using htr, hc⟩
  · rintro ⟨term, hmem, c, hd, hde, hc⟩
    rw [hd]
    refine ⟨by simp [jsTruthyStr, hde], term, hmem, ?_⟩
    rw [jsOrStr_some_empty]
    exact hc

/-- The amount clause, in existential form: the record's amount must be
present and nonzero (JavaScript truthiness) for a numeric term to match. -/
theorem amountMatch_iff (q : String) (t : Txn) :
    amountMatch q t = true ↔
      ∃ term ∈ queryTermsOf q, ∃ a qa, t.amount = some a ∧ a ≠ 0 ∧
        extractFirstNum term = some qa ∧ jsAbsRat (a - qa) < 5 := by
  unfold amountMatch
  rw [List.any_eq_true]
  constructor
  · rintro ⟨term, hmem, hterm⟩
    cases hqa : extractFirstNum term with
    | none => rw [hqa] at hterm; simp at hterm
    | some qa =>
      cases ha : t.amount with
      | none => rw [hqa, ha] at hterm; simp at hterm
      | some a =>
        rw [hqa, ha] at hterm
        simp only at hterm
        by_cases ha0 : a = 0
        · rw [if_pos ha0] at hterm; exact absurd hterm (by simp)
        · rw [if_neg ha0] at hterm
          exact ⟨term, hmem, a, qa, rfl, ha0, hqa, of_decide_eq_true hterm⟩
  · rintro ⟨term, hmem, a, qa, ha, ha0, hqa, hlt⟩
    refine ⟨term, hmem, ?_⟩
    rw [hqa, ha]
    simp [ha0, hlt]

/-- The date clause, in existential form. -/
theorem dateMatch_iff (q : String) (t : Txn) :
    dateMatch q t = true ↔
      ∃ term ∈ queryTermsOf q, ∃ d, t.date = some d ∧ d ≠ "" ∧
        (strContains term "202" = true ∨ monthTokenIn term = true) ∧
        strContains (jsToLower d) term = true := by
  unfold dateMatch
  rw [List.any_eq_true]
  constructor
  · rintro ⟨term, hmem, hterm⟩
    cases hd : t.date with
    | none => rw [hd] at hterm; simp at hterm
    | some d =>
      rw [hd] at hterm
      simp only at hterm
      by_cases hde : d = ""
      · rw [if_pos hde] at hterm; exact absurd hterm (by simp)
      · rw [if_neg hde] at hterm
        by_cases hcond : (strContains term "202" || monthTokenIn term) = true
        · rw [if_pos hcond] at hterm
          exact ⟨term, hmem, d, rfl, hde, by simpa [Bool.or_eq_true] using hcond, hterm⟩
        · rw [if_neg hcond] at hterm; exact absurd hterm (by simp)
  · rintro ⟨term, hmem, d, hd, hde, hcond, hc⟩
    refine ⟨term, hmem, ?_⟩
    rw [hd]
    simp only
    rw [if_neg hde, if_pos (by simpa [Bool.or_eq_true] using hcond)]
    exact hc

/-- Counterexample to C5 as stated: a record with amount `0`, an
above-threshold score and no other match is claimed to survive via the
numeric term "003" (distance 3 < 5), but the source's truthiness test on
`transaction.amount` rejects a zero amount, so the record is dropped. -/
theorem c5_counterexample :
    financeKeep "003" zeroAmountTxn = false ∧
    specKeepOriginal "003" zeroAmountTxn := by
  refine ⟨by decide, ⟨by decide, "003", by decide,
    Or.inr (Or.inr (Or.inr (Or.inl ⟨0, 3, rfl, by decide, by decide⟩)))⟩⟩

/-- C5 amended: a record survives the score-threshold filter exactly when
its attached score does not compare below 0.7 and some query term matches
by description/category/topLevelCategory substring, by carrying a first
number strictly within 5 units of a present **nonzero** amount, or by being
a year/month-like token contained in the date string. -/
theorem c5_keep_amended :
    ∀ (query : String) (t : Txn),
      financeKeep query t = true ↔ specKeepAmended query t := by
  intro q t
  unfold financeKeep specKeepAmended
  cases hs : jsLtOptNum t.score (7/10) with
  | true => simp [hs]
  | false =>
    simp only [Bool.false_eq_true, if_false, eq_self_iff_true, true_and]
    unfold financeMatchPart
    rw [Bool.or_eq_true, Bool.or_eq_true, Bool.or_eq_true, Bool.or_eq_true,
      descriptionMatch_iff, categoryMatch_iff, topLevelCategoryMatch_iff,
      amountMatch_iff, dateMatch_iff]
    constructor
    · rintro ((((⟨term, hm, h⟩ | ⟨term, hm, h⟩) | ⟨term, hm, h⟩) | ⟨term, hm, h⟩) | ⟨term, hm, h⟩)
      · exact ⟨term, hm, Or.inl h⟩
      · exact ⟨term, hm, Or.inr (Or.inl h)⟩
      · exact ⟨term, hm, Or.inr (Or.inr (Or.inl h))⟩
      · exact ⟨term, hm, Or.inr (Or.inr (Or.inr (Or.inl h)))⟩
      · exact ⟨term, hm, Or.inr (Or.inr (Or.inr (Or.inr h)))⟩
    · rintro ⟨term, hm, (h | h | h | h | h)⟩
      · exact Or.inl (Or.inl (Or.inl (Or.inl ⟨term, hm, h⟩)))
      · exact Or.inl (Or.inl (Or.inl (Or.inr ⟨term, hm, h⟩)))
      · exact Or.inl (Or.inl (Or.inr ⟨term, hm, h⟩))
      · exact Or.inl (Or.inr ⟨term, hm, h⟩)
      · exact Or.inr ⟨term, hm, h⟩
